import Mathlib

/-!
Verification development for the ReMapper core: the animation-curve
optimizer (`src/anim_optimizer.ts`) and the light-ID remapper
(`src/light_remapper.ts`).

Numbers are modelled as rationals (`ℚ`): all the operations involved are
field operations, so every JS float computation is mirrored exactly up to
rounding, and the spec's "within floating tolerance" comparisons become
exact equalities.  JS `NaN` has no rational counterpart; the two places
where the source can produce `NaN` (out-of-range reads of
`pointData.values[i]` in `GetYIntercept` / `SlopeOfPoint`, reachable only
through stale global scratch arrays) are modelled as explicit `Except`
errors.  Thrown JS exceptions (`areFloatsSimilar` on mismatched lengths)
are modelled with `Except String`.
-/

/-- A keyframe: a vector of animated values plus a time, with optional
easing/spline tags (from `animation.ts`'s `Keyframe` accessors used by the
optimizer). -/
structure Keyframe where
  values : List ℚ
  time : ℚ
  easing : Option String := none
  spline : Option String := none
deriving DecidableEq, Repr

/-- `OptimizeSettings.optimizeDuplicates` record. -/
structure DuplicatesSettings where
  active : Bool
deriving DecidableEq, Repr

/-- `OptimizeSettings.optimizeSimilarPoints` record. -/
structure SimilarPointsSettings where
  active : Bool
  differenceThreshold : ℚ
  timeDifferenceThreshold : ℚ
deriving DecidableEq, Repr

/-- `OptimizeSettings.optimizeSimilarPointsSlope` record. -/
structure SimilarPointsSlopeSettings where
  active : Bool
  differenceThreshold : ℚ
  timeDifferenceThreshold : ℚ
  yInterceptDifferenceThreshold : ℚ
deriving DecidableEq, Repr

/-- The `OptimizeSettings` class (anim_optimizer.ts lines 3-19). -/
structure OptimizeSettings where
  optimize : Bool
  optimizeDuplicates : DuplicatesSettings
  optimizeSimilarPoints : SimilarPointsSettings
  optimizeSimilarPointsSlope : SimilarPointsSlopeSettings
deriving DecidableEq, Repr

/-- The default-constructed `OptimizeSettings` (source defaults
`1, 0.03; 0.03, 0.025, 0.5`, everything active). -/
def defaultOptimizeSettings : OptimizeSettings :=
  { optimize := true
    optimizeDuplicates := { active := true }
    optimizeSimilarPoints :=
      { active := true, differenceThreshold := 1, timeDifferenceThreshold := 3/100 }
    optimizeSimilarPointsSlope :=
      { active := true, differenceThreshold := 3/100, timeDifferenceThreshold := 1/40
        yInterceptDifferenceThreshold := 1/2 } }

/-- `OptimizeMath.areArrayElementsIdentical`: length check, then
element-wise strict equality. -/
def areArrayElementsIdentical (enumerable1 enumerable2 : List ℚ) : Bool :=
  if enumerable1.length ≠ enumerable2.length then false
  else (enumerable1.zip enumerable2).all fun p => p.1 = p.2

/-- `Math.abs` (defined by cases so that concrete runs of the optimizer
kernel-reduce; agrees with Mathlib's `|·|`, see `qabs_eq_abs`). -/
def qabs (x : ℚ) : ℚ := if x < 0 then -x else x

theorem qabs_eq_abs (x : ℚ) : qabs x = |x| := by
  unfold qabs
  rcases lt_or_le x 0 with h | h
  · rw [if_pos h, abs_of_neg h]
  · rw [if_neg (not_lt.mpr h), abs_of_nonneg h]

/-- The message of the error thrown by `areFloatsSimilar` on mismatched
lengths. -/
def lengthMismatchMessage (n1 n2 : Nat) : String :=
  "Arrays are not matching lengths. First: " ++ toString n1 ++ " Second: " ++ toString n2

/-- Loop body of `OptimizeMath.areFloatsSimilar`: returns `false` as soon
as one absolute difference reaches the threshold. -/
def areFloatsSimilarGo : List ℚ → List ℚ → ℚ → Bool
  | e1 :: r1, e2 :: r2, threshold =>
    if qabs (e1 - e2) ≥ threshold then false else areFloatsSimilarGo r1 r2 threshold
  | _, _, _ => true

/-- `OptimizeMath.areFloatsSimilar`: throws on mismatched lengths, else
checks every channel difference is strictly below the threshold. -/
def areFloatsSimilar (enumerable1 enumerable2 : List ℚ) (threshold : ℚ) :
    Except String Bool :=
  if enumerable1.length ≠ enumerable2.length then
    .error (lengthMismatchMessage enumerable1.length enumerable2.length)
  else
    .ok (areFloatsSimilarGo enumerable1 enumerable2 threshold)

/-- `OptimizeMath.arePointSimilar`: values similar (strict `<` threshold)
and time difference `≤` the time threshold (non-strict in the source). -/
def arePointSimilar (a b : Keyframe) (differenceThreshold timeDifferenceThreshold : ℚ) :
    Except String Bool := do
  let valuesSimilar ← areFloatsSimilar a.values b.values differenceThreshold
  pure (valuesSimilar && decide (qabs (a.time - b.time) ≤ timeDifferenceThreshold))

/-- Models a JS in-place write of `fresh[i]` into array `old` for every
`i < fresh.length` (the array auto-extends; longer stale suffixes of `old`
survive).  Used for the reused `dummyArrays` scratch buffers. -/
def writeFront (old fresh : List ℚ) : List ℚ :=
  fresh ++ old.drop fresh.length

/-- `OptimizeMath.SlopeOfPoint`, acting on a scratch array and returning
its new contents.  Reading `a.values[i]` out of range yields `NaN` in JS,
which `ℚ` cannot represent: that case is an explicit error. -/
def SlopeOfPoint (a b : Keyframe) (slopes : List ℚ) : Except String (List ℚ) :=
  if b.values.length ≤ a.values.length then
    .ok (writeFront slopes
      (List.zipWith
        (fun bv av =>
          let xDiff := bv - av
          let yDiff := b.time - a.time
          if xDiff = 0 ∨ yDiff = 0 then 0 else yDiff / xDiff)
        b.values a.values))
  else .error "SlopeOfPoint: a.values index out of range (NaN in source)"

/-- `OptimizeMath.GetYIntercept`, acting on a scratch array and returning
its new contents; `y - slope * x` per channel.  Reading
`pointData.values[i]` out of range yields `NaN` in JS: explicit error. -/
def GetYIntercept (pointData : Keyframe) (slopeArray yIntercepts : List ℚ) :
    Except String (List ℚ) :=
  if slopeArray.length ≤ pointData.values.length then
    .ok (writeFront yIntercepts
      (List.zipWith (fun slope x => pointData.time - slope * x)
        slopeArray pointData.values))
  else .error "GetYIntercept: values index out of range (NaN in source)"

/-- Result of `OptimizeMath.ComparePointsSlope` together with the final
contents of the four scratch arrays it may mutate. -/
structure CompareSlopeResult where
  similar : Bool
  skip : Bool
  middleSlope : List ℚ
  endSlope : List ℚ
  middleYIntercepts : List ℚ
  endYIntercepts : List ℚ
deriving DecidableEq, Repr

/-- `OptimizeMath.ComparePointsSlope` (anim_optimizer.ts lines 79-144). -/
def ComparePointsSlope (startPoint middlePoint endPoint : Keyframe)
    (middleSlope endSlope middleYIntercepts endYIntercepts : List ℚ)
    (timeDifferenceThreshold differenceThreshold yInterceptDifferenceThreshold : ℚ) :
    Except String CompareSlopeResult := do
  -- skip these points because time difference is too small
  if qabs (startPoint.time - endPoint.time) ≤ timeDifferenceThreshold ∨
      qabs (startPoint.time - middlePoint.time) ≤ timeDifferenceThreshold ∨
      qabs (middlePoint.time - endPoint.time) ≤ timeDifferenceThreshold then
    return { similar := false, skip := true, middleSlope, endSlope,
             middleYIntercepts, endYIntercepts }
  -- skip points whose easing or smoothness differ
  if endPoint.easing ≠ middlePoint.easing ∨ endPoint.spline ≠ middlePoint.spline then
    return { similar := false, skip := true, middleSlope, endSlope,
             middleYIntercepts, endYIntercepts }
  -- skip points that are identical with large time differences (keyframe pause);
  -- the `&&` short-circuits, so `areFloatsSimilar` only runs when the time
  -- condition holds
  let pause ←
    if qabs (endPoint.time - middlePoint.time) > differenceThreshold then
      areFloatsSimilar endPoint.values middlePoint.values differenceThreshold
    else pure false
  if pause then
    return { similar := false, skip := true, middleSlope, endSlope,
             middleYIntercepts, endYIntercepts }
  let endSlope2 ← SlopeOfPoint startPoint endPoint endSlope
  let middleSlope2 ← SlopeOfPoint startPoint middlePoint middleSlope
  let middleY2 ← GetYIntercept middlePoint middleSlope2 middleYIntercepts
  let endY2 ← GetYIntercept endPoint endSlope2 endYIntercepts
  -- `similar = areFloatsSimilar(yIntercepts) && areFloatsSimilar(slopes)`,
  -- short-circuiting
  let simY ← areFloatsSimilar middleY2 endY2 yInterceptDifferenceThreshold
  let similar ←
    if simY then areFloatsSimilar middleSlope2 endSlope2 differenceThreshold
    else pure false
  return { similar := similar, skip := false, middleSlope := middleSlope2,
           endSlope := endSlope2, middleYIntercepts := middleY2,
           endYIntercepts := endY2 }

/-- The module-level `dummyArrays` scratch state (four reusable arrays,
anim_optimizer.ts line 215). -/
structure DummyArrays where
  arr0 : List ℚ
  arr1 : List ℚ
  arr2 : List ℚ
  arr3 : List ℚ
deriving DecidableEq, Repr

/-- `dummyArrays` as initialized at module load: four empty arrays. -/
def initialDummyArrays : DummyArrays := ⟨[], [], [], []⟩

/-- `optimizeDuplicates` (anim_optimizer.ts lines 176-188): returns the
point deemed unnecessary, or `none`. -/
def optimizeDuplicates (pointA pointB : Keyframe) (pointC : Option Keyframe) :
    Option Keyframe :=
  match pointC with
  | none =>
    -- array is size 2
    if areArrayElementsIdentical pointA.values pointB.values then some pointA else none
  | some pointC =>
    if areArrayElementsIdentical pointA.values pointB.values &&
        areArrayElementsIdentical pointB.values pointC.values then some pointB
    else none

/-- The easing/spline guard of `optimizeSimilarPoints` (line 195). -/
def similarEasingMismatch (pointA pointB : Keyframe) (pointC : Option Keyframe) : Bool :=
  pointA.easing ≠ pointB.easing || pointA.spline ≠ pointB.spline ||
    (match pointC with
     | some pointC => pointB.spline ≠ pointC.spline || pointB.easing ≠ pointC.easing
     | none => false)

/-- `optimizeSimilarPoints` (anim_optimizer.ts lines 192-210); the `&&`
between the two `arePointSimilar` calls short-circuits. -/
def optimizeSimilarPoints (pointA pointB : Keyframe) (pointC : Option Keyframe)
    (differenceThreshold timeDifferenceThreshold : ℚ) :
    Except String (Option Keyframe) :=
  if similarEasingMismatch pointA pointB pointC then .ok none
  else
    match pointC with
    | none => do
      -- array is size 2
      let s ← arePointSimilar pointA pointB differenceThreshold timeDifferenceThreshold
      pure (if s then some pointA else none)
    | some pointC => do
      let s1 ← arePointSimilar pointA pointB differenceThreshold timeDifferenceThreshold
      if s1 then do
        let s2 ← arePointSimilar pointB pointC differenceThreshold timeDifferenceThreshold
        pure (if s2 then some pointB else none)
      else pure none

/-- `optimizeSimilarPointsSlope` (anim_optimizer.ts lines 219-237),
threading the `dummyArrays` state it mutates through
`ComparePointsSlope`. -/
def optimizeSimilarPointsSlope (pointA pointB : Keyframe) (pointC : Option Keyframe)
    (differenceThreshold timeDifferenceThreshold yInterceptDifferenceThreshold : ℚ)
    (st : DummyArrays) : Except String (Option Keyframe × DummyArrays) :=
  match pointC with
  | none =>
    -- array is size 2
    .ok (none, st)
  | some pointC =>
    if pointA.easing ≠ pointB.easing ∨ pointA.spline ≠ pointB.spline ∨
        pointB.spline ≠ pointC.spline ∨ pointB.easing ≠ pointC.easing then
      .ok (none, st)
    else do
      let r ← ComparePointsSlope pointA pointB pointC st.arr0 st.arr1 st.arr2 st.arr3
        timeDifferenceThreshold differenceThreshold yInterceptDifferenceThreshold
      .ok ((if r.similar then some pointB else none),
           ⟨r.middleSlope, r.endSlope, r.middleYIntercepts, r.endYIntercepts⟩)

/-- The inner `processPoints` closure of `optimizePoints` (lines 247-253).
Note the source passes `optimizeSimilarPoints`' thresholds (not the slope
family's own) to `optimizeSimilarPointsSlope`. -/
def processPoints (settings : OptimizeSettings) (pointA pointB : Keyframe)
    (pointC : Option Keyframe) (st : DummyArrays) :
    Except String (Bool × DummyArrays) := do
  let mut pointPassed := true
  let mut st := st
  if settings.optimizeDuplicates.active then
    if optimizeDuplicates pointA pointB pointC = none then
      pointPassed := false
  if settings.optimizeSimilarPoints.active then
    let r ← optimizeSimilarPoints pointA pointB pointC
      settings.optimizeSimilarPoints.differenceThreshold
      settings.optimizeSimilarPoints.timeDifferenceThreshold
    if r = none then
      pointPassed := false
  if settings.optimizeSimilarPointsSlope.active then
    let (r, st2) ← optimizeSimilarPointsSlope pointA pointB pointC
      settings.optimizeSimilarPoints.differenceThreshold
      settings.optimizeSimilarPoints.timeDifferenceThreshold
      settings.optimizeSimilarPointsSlope.yInterceptDifferenceThreshold st
    st := st2
    if r = none then
      pointPassed := false
  return (pointPassed, st)

/-- The `points.length === 2` pre-step of each pass (line 256): when the
working array has exactly two points and `processPoints` is false, splice
away the second point. -/
def twoPointStep (settings : OptimizeSettings) (points : List Keyframe)
    (st : DummyArrays) : Except String (List Keyframe × DummyArrays) :=
  match points with
  | [a, b] =>
    match processPoints settings a b none st with
    | .error e => .error e
    | .ok (passed, st') => .ok ((if passed then [a, b] else [a]), st')
  | _ => .ok (points, st)

/-- The interior `for` loop of a pass (lines 258-267), as a zipper.
At loop index `i`, `left` holds `points[0..i-2]` reversed, `pointA` is
`points[i-1]`, `pointB` is `points[i]`, and `right` is `points[i+1..]`;
the loop runs while `i < points.length - 1`, i.e. while `right` is
nonempty.  When `processPoints` is true the cursor advances (`pointA`
joins `left`); when false, `points.splice(i, 1); i--` followed by the
`i++` of the loop keeps the cursor at the same index with `pointB`
dropped — the window slides over the removed point. -/
def scanInterior (settings : OptimizeSettings) :
    List Keyframe → Keyframe → Keyframe → List Keyframe → DummyArrays →
    Except String (List Keyframe × DummyArrays)
  | left, pointA, pointB, [], st => .ok (left.reverse ++ [pointA, pointB], st)
  | left, pointA, pointB, pointC :: rest, st =>
    match processPoints settings pointA pointB (some pointC) st with
    | .error e => .error e
    | .ok (passed, st') =>
      if passed then scanInterior settings (pointA :: left) pointB pointC rest st'
      else scanInterior settings left pointA pointC rest st'

/-- One interior scan over the whole working array, starting at `i = 1`;
for fewer than three points the loop condition `1 < points.length - 1`
fails immediately. -/
def scanPass (settings : OptimizeSettings) (points : List Keyframe)
    (st : DummyArrays) : Except String (List Keyframe × DummyArrays) :=
  match points with
  | p0 :: p1 :: rest =>
    if rest.isEmpty then .ok (points, st)
    else scanInterior settings [] p0 p1 rest st
  | _ => .ok (points, st)

/-- The `for (let pass = 0; pass < passes; pass++)` loop (lines 255-268):
each pass runs the two-point step, then the interior scan. -/
def passLoop (settings : OptimizeSettings) :
    Nat → List Keyframe → DummyArrays → Except String (List Keyframe × DummyArrays)
  | 0, points, st => .ok (points, st)
  | n + 1, points, st =>
    match twoPointStep settings points st with
    | .error e => .error e
    | .ok (points1, st1) =>
      match scanPass settings points1 st1 with
      | .error e => .error e
      | .ok (points2, st2) => passLoop settings n points2 st2

/-- `points.sort((a, b) => a.time - b.time)`: a stable ascending sort by
time (ECMAScript sorts are stable; a stable sort is unique as a function,
so insertion sort by `time ≤ time` computes it). -/
def sortByTime (points : List Keyframe) : List Keyframe :=
  points.insertionSort fun a b => a.time ≤ b.time

/-- `optimizePoints` (anim_optimizer.ts lines 239-271).  The result is
`none` exactly where the source returns `undefined` (the `< 2` early
return), and `.error` where a similarity check throws.  `st` is the
content of the module-level `dummyArrays` when the call starts
(`initialDummyArrays` for the first call after module load). -/
def optimizePoints (points : List Keyframe) (settings : OptimizeSettings)
    (passes : Nat) (st : DummyArrays) : Except String (Option (List Keyframe)) :=
  if settings.optimize = false then .ok (some points)
  else
    let points := sortByTime points
    -- not enough points
    if points.length < 2 then .ok none
    else
      match passLoop settings passes points st with
      | .error e => .error e
      | .ok (result, _) => .ok (some result)

/-- A `lightID` value: a bare number or a sequence of numbers (`LightID`
in `event.ts`, as used by `light_remapper.ts`). -/
inductive LightID where
  | scalar (n : ℚ)
  | seq (ns : List ℚ)
deriving DecidableEq, Repr

/-- `typeof lightID === "number" ? [lightID] : lightID`: promote to a
sequence. -/
def lidToList : LightID → List ℚ
  | .scalar n => [n]
  | .seq ns => ns

/-- An event as seen by the remapper: `type`, optional `color`, optional
`lightID` (`EventInternals.AbstractEvent` surface). -/
structure AbstractEvent where
  type : ℚ
  color : Option (List ℚ)
  lightID : Option LightID
deriving DecidableEq, Repr

/-- JS truthiness of `x.lightID`: absent and the number `0` are falsy;
any array (even empty) is truthy. -/
def lightIDTruthy : Option LightID → Bool
  | none => false
  | some (.scalar n) => decide (n ≠ 0)
  | some (.seq _) => true

/-- `LightRemapper.complexifyLightIDs` (light_remapper.ts lines 95-99):
promote to a sequence, run the callback, demote back to a scalar exactly
when one element remains. -/
def complexifyLightIDs (lightID : LightID) (callback : List ℚ → List ℚ) : LightID :=
  let ids := lidToList lightID
  let ids := callback ids
  match ids with
  | [x] => .scalar x
  | _ => .seq ids

/-- `inputMapped`/`output` accumulation step shared by `solve` and
`apply`: the implicit `[0, 1]` first segment contributes the first
breakpoint itself, later segments contribute
`lastRate * (breakpoint - lastBreakpoint)`. -/
def covStep (lastChange : Option (ℚ × ℚ)) (breakpoint : ℚ) : ℚ :=
  match lastChange with
  | none => breakpoint
  | some lc => lc.2 * (breakpoint - lc.1)

/-- The `while (true)` loop of `solve` inside `solveLightMap`
(light_remapper.ts lines 257-289), recursing over the remaining changes
with the `lastChange`/`inputMapped` state.  The `[]` case is unreachable
from `solveF` (the loop always returns at the last change). -/
def solveGo : List (ℚ × ℚ) → Option (ℚ × ℚ) → ℚ → ℚ → ℚ
  | [], _, _, output => output
  | currentChange :: rest, lastChange, inputMapped, output =>
    let inputMapped2 := inputMapped + covStep lastChange currentChange.1
    if inputMapped2 > output then
      -- next change is too far out
      match lastChange with
      | none => output
      | some lc => lc.1 + (output - inputMapped) / lc.2
    else if rest.isEmpty then
      currentChange.1 + (output - inputMapped2) / currentChange.2
    else solveGo rest (some currentChange) inputMapped2 output

/-- `solve(output, changes)` of `solveLightMap`: empty tables are the
identity. -/
def solveF (output : ℚ) (changes : List (ℚ × ℚ)) : ℚ :=
  if changes.length < 1 then output else solveGo changes none 0 output

/-- `solveLightMap(map, ids)`: `solve` applied to every id. -/
def solveLightMap (map : List (ℚ × ℚ)) (ids : List ℚ) : List ℚ :=
  ids.map fun i => solveF i map

/-- The `while (true)` loop of `apply` inside `applyLightMap`
(light_remapper.ts lines 304-339).  The `[]` case is unreachable from
`applyF`. -/
def applyGo : List (ℚ × ℚ) → Option (ℚ × ℚ) → ℚ → ℚ → ℚ
  | [], _, _, input => input
  | currentChange :: rest, lastChange, output, input =>
    if currentChange.1 ≤ input then
      -- fill entire previous change
      let output2 := output + covStep lastChange currentChange.1
      if rest.isEmpty then output2 + currentChange.2 * (input - currentChange.1)
      else applyGo rest (some currentChange) output2 input
    else
      -- next change is too far out
      match lastChange with
      | none => input
      | some lc => output + lc.2 * (input - lc.1)

/-- `apply(input, changes)` of `applyLightMap` (before the offset is
added): empty tables are the identity. -/
def applyF (input : ℚ) (changes : List (ℚ × ℚ)) : ℚ :=
  if changes.length < 1 then input else applyGo changes none 0 input

/-- `applyLightMap(map, ids)` with the leading offset element split off
(the source splices it from the head of the map array): applies `apply`
then adds the offset, per id. -/
def applyLightMap (offset : ℚ) (map : List (ℚ × ℚ)) (ids : List ℚ) : List ℚ :=
  ids.map fun i => applyF i map + offset

/-- The `normalizeLinear(step, start)` process (lines 197-201): a
single-segment table `[[start, step]]`, guarded by `lightID`
truthiness. -/
def normalizeLinearProcess (step start : ℚ) (x : AbstractEvent) : AbstractEvent :=
  if lightIDTruthy x.lightID then
    match x.lightID with
    | some lid =>
      { x with lightID := some (complexifyLightIDs lid fun ids =>
          solveLightMap [(start, step)] ids) }
    | none => x
  else x

/-- The `normalizeWithChanges(map)` process (lines 216-220). -/
def normalizeWithChangesProcess (map : List (ℚ × ℚ)) (x : AbstractEvent) :
    AbstractEvent :=
  if lightIDTruthy x.lightID then
    match x.lightID with
    | some lid =>
      { x with lightID := some (complexifyLightIDs lid fun ids =>
          solveLightMap map ids) }
    | none => x
  else x

/-- The `addToEnd(offset, step?)` process (lines 228-237).  `if (step)`
is a JS truthiness test: an absent step and a zero step both leave the id
unscaled. -/
def addToEndProcess (offset : ℚ) (step : Option ℚ) (x : AbstractEvent) :
    AbstractEvent :=
  if lightIDTruthy x.lightID then
    match x.lightID with
    | some lid =>
      { x with lightID := some (complexifyLightIDs lid fun ids =>
          ids.map fun i =>
            (match step with
             | some s => if s ≠ 0 then (i - 1) * s + 1 else i
             | none => i) + offset) }
    | none => x
  else x

/-- The `remapEnd(map, offset)` process (lines 245-252): `applyLightMap`
with the offset prepended, mutating the ids in place. -/
def remapEndProcess (map : List (ℚ × ℚ)) (offset : ℚ) (x : AbstractEvent) :
    AbstractEvent :=
  if lightIDTruthy x.lightID then
    match x.lightID with
    | some lid =>
      { x with lightID := some (complexifyLightIDs lid fun ids =>
          applyLightMap offset map ids) }
    | none => x
  else x

/-- The `appendIDs(lightID, initialize)` process (lines 161-173).  On a
falsy `lightID` (absent or the number `0`): skip unless `initialize`, in
which case start from `[]`.  The outer `complexifyLightIDs` call's only
effect is its callback, which stores the appended result; the appended
ids are the complexified `lightID` argument. -/
def appendIDsProcess (lightID : LightID) (initFlag : Bool) (x : AbstractEvent) :
    AbstractEvent :=
  if ¬ lightIDTruthy x.lightID then
    if initFlag then
      { x with lightID := some (complexifyLightIDs (.seq []) fun ids2 =>
          ids2 ++ lidToList lightID) }
    else x
  else
    match x.lightID with
    | some cur =>
      { x with lightID := some (complexifyLightIDs cur fun ids2 =>
          ids2 ++ lidToList lightID) }
    | none => x

/-- The interior scan only ever splices points out: its result is a
sublist of the window it was started on. -/
theorem scanInterior_ok_sublist (settings : OptimizeSettings) :
    ∀ (right left : List Keyframe) (pA pB : Keyframe) (st : DummyArrays)
      (r : List Keyframe) (st' : DummyArrays),
      scanInterior settings left pA pB right st = .ok (r, st') →
      List.Sublist r (left.reverse ++ pA :: pB :: right) := by
  intro right
  induction right with
  | nil =>
    intro left pA pB st r st' h
    simp only [scanInterior, Except.ok.injEq, Prod.mk.injEq] at h
    rw [← h.1]
  | cons c rest ih =>
    intro left pA pB st r st' h
    simp only [scanInterior] at h
    cases hp : processPoints settings pA pB (some c) st with
    | error e => rw [hp] at h; exact absurd h (by simp)
    | ok v =>
      obtain ⟨passed, st1⟩ := v
      rw [hp] at h
      dsimp only at h
      by_cases hpass : passed = true
      · rw [if_pos hpass] at h
        have := ih (pA :: left) pB c st1 r st' h
        rw [List.reverse_cons, List.append_assoc] at this
        simpa using this
      · rw [if_neg hpass] at h
        have := ih left pA c st1 r st' h
        refine this.trans ?_
        refine List.Sublist.append_left ?_ _
        exact (List.sublist_cons_self pB (c :: rest)).cons₂ pA

/-- One full pass's interior scan returns a sublist of the working
array. -/
theorem scanPass_ok_sublist (settings : OptimizeSettings)
    (points : List Keyframe) (st : DummyArrays) (r : List Keyframe)
    (st' : DummyArrays) (h : scanPass settings points st = .ok (r, st')) :
    List.Sublist r points := by
  match points with
  | [] => simp only [scanPass, Except.ok.injEq, Prod.mk.injEq] at h; rw [← h.1]
  | [p0] => simp only [scanPass, Except.ok.injEq, Prod.mk.injEq] at h; rw [← h.1]
  | p0 :: p1 :: rest =>
    simp only [scanPass] at h
    by_cases he : rest.isEmpty
    · rw [if_pos he] at h
      simp only [Except.ok.injEq, Prod.mk.injEq] at h
      rw [← h.1]
    · rw [if_neg he] at h
      simpa using scanInterior_ok_sublist settings rest [] p0 p1 st r st' h

/-- The two-point pre-step returns a sublist of the working array. -/
theorem twoPointStep_ok_sublist (settings : OptimizeSettings)
    (points : List Keyframe) (st : DummyArrays) (r : List Keyframe)
    (st' : DummyArrays) (h : twoPointStep settings points st = .ok (r, st')) :
    List.Sublist r points := by
  match points with
  | [a, b] =>
    simp only [twoPointStep] at h
    cases hp : processPoints settings a b none st with
    | error e => rw [hp] at h; exact absurd h (by simp)
    | ok v =>
      obtain ⟨passed, st1⟩ := v
      rw [hp] at h
      dsimp only at h
      simp only [Except.ok.injEq, Prod.mk.injEq] at h
      rw [← h.1]
      by_cases hpass : passed = true
      · rw [if_pos hpass]
      · rw [if_neg hpass]
        exact (List.sublist_cons_self b []).reverse.cons₂ a
  | [] => simp only [twoPointStep, Except.ok.injEq, Prod.mk.injEq] at h; rw [← h.1]
  | [a] => simp only [twoPointStep, Except.ok.injEq, Prod.mk.injEq] at h; rw [← h.1]
  | a :: b :: c :: rest =>
    simp only [twoPointStep, Except.ok.injEq, Prod.mk.injEq] at h; rw [← h.1]

/-- Across all passes, the optimizer only removes points. -/
theorem passLoop_ok_sublist (settings : OptimizeSettings) :
    ∀ (n : Nat) (points : List Keyframe) (st : DummyArrays) (r : List Keyframe)
      (st' : DummyArrays), passLoop settings n points st = .ok (r, st') →
      List.Sublist r points := by
  intro n
  induction n with
  | zero =>
    intro points st r st' h
    simp only [passLoop, Except.ok.injEq, Prod.mk.injEq] at h
    rw [← h.1]
  | succ m ih =>
    intro points st r st' h
    simp only [passLoop] at h
    cases h1 : twoPointStep settings points st with
    | error e => rw [h1] at h; exact absurd h (by simp)
    | ok v1 =>
      obtain ⟨points1, st1⟩ := v1
      rw [h1] at h
      dsimp only at h
      cases h2 : scanPass settings points1 st1 with
      | error e => rw [h2] at h; exact absurd h (by simp)
      | ok v2 =>
        obtain ⟨points2, st2⟩ := v2
        rw [h2] at h
        dsimp only at h
        exact ((ih points2 st2 r st' h).trans
          (scanPass_ok_sublist settings points1 st1 points2 st2 h2)).trans
          (twoPointStep_ok_sublist settings points st points1 st1 h1)

/-- A stable sort does not change the length. -/
theorem sortByTime_length (points : List Keyframe) :
    (sortByTime points).length = points.length :=
  (List.perm_insertionSort _ points).length_eq

/-- C9 (amended): whenever `optimizePoints` returns an array, the array
never exceeds the input length; with `optimize = false` it is the input
itself, untouched; otherwise it is a stable subsequence (a sublist) of
the time-sorted working array — points are only ever removed, never
added, reordered among themselves, or mutated.  (As stated the claim
fails only because fewer than 2 points yield `undefined`, not an array:
see the counterexample.) -/
theorem optimize_result_is_stable_subsequence
    (settings : OptimizeSettings) (points : List Keyframe) (passes : Nat)
    (st : DummyArrays) (r : List Keyframe)
    (h : optimizePoints points settings passes st = .ok (some r)) :
    r.length ≤ points.length ∧
    (settings.optimize = false → r = points) ∧
    (settings.optimize = true → List.Sublist r (sortByTime points)) := by
  unfold optimizePoints at h
  by_cases ho : settings.optimize = false
  · rw [if_pos ho] at h
    simp only [Except.ok.injEq, Option.some.injEq] at h
    subst h
    exact ⟨le_refl _, fun _ => rfl, fun ht => absurd ho (by simp [ht])⟩
  · rw [if_neg ho] at h
    have ht : settings.optimize = true := by
      revert ho; cases settings.optimize <;> simp
    by_cases hs : (sortByTime points).length < 2
    · rw [if_pos hs] at h
      exact absurd h (by simp)
    · rw [if_neg hs] at h
      cases hp : passLoop settings passes (sortByTime points) st with
      | error e => rw [hp] at h; exact absurd h (by simp)
      | ok v =>
        obtain ⟨res, st2⟩ := v
        rw [hp] at h
        simp only [Except.ok.injEq, Option.some.injEq] at h
        subst h
        have hsub := passLoop_ok_sublist settings passes (sortByTime points) st res st2 hp
        refine ⟨?_, fun hf => absurd hf (by simp [ht]), fun _ => hsub⟩
        calc res.length ≤ (sortByTime points).length := hsub.length_le
          _ = points.length := sortByTime_length points

/-- Witness for C9: concrete two-keyframe run with default settings. -/
def witKf0 : Keyframe := ⟨[0], 0, none, none⟩

/-- Second keyframe of the C9 witness run. -/
def witKf1 : Keyframe := ⟨[1], 1, none, none⟩

theorem optimize_result_is_stable_subsequence_witness :
    optimizePoints [witKf0, witKf1] defaultOptimizeSettings 1 initialDummyArrays
      = .ok (some [witKf0]) ∧
    ([witKf0] : List Keyframe).length ≤ ([witKf0, witKf1] : List Keyframe).length ∧
    List.Sublist [witKf0] (sortByTime [witKf0, witKf1]) := by
  have heval : optimizePoints [witKf0, witKf1] defaultOptimizeSettings 1
      initialDummyArrays = .ok (some [witKf0]) := by
    norm_num [optimizePoints, sortByTime, List.insertionSort, List.orderedInsert,
      passLoop, twoPointStep, scanPass, scanInterior, processPoints,
      optimizeDuplicates, areArrayElementsIdentical, optimizeSimilarPoints,
      similarEasingMismatch, arePointSimilar, areFloatsSimilar, areFloatsSimilarGo,
      qabs, optimizeSimilarPointsSlope, witKf0, witKf1, defaultOptimizeSettings,
      initialDummyArrays, Option.some_ne_none, ne_eq, reduceCtorEq, pure,
      Except.pure, bind, Except.bind, Except.map]
  have hmain := optimize_result_is_stable_subsequence defaultOptimizeSettings
    [witKf0, witKf1] 1 initialDummyArrays [witKf0] heval
  exact ⟨heval, hmain.1, hmain.2.2 rfl⟩

/-- Counterexample for C9 as stated: on a one-keyframe input with
optimization enabled, `optimize` does not return a sequence at all — it
returns `undefined` (modelled as `none`). -/
theorem optimize_short_input_no_sequence_counterexample :
    optimizePoints [⟨[1], 1, none, none⟩] defaultOptimizeSettings 1
      initialDummyArrays = .ok none := rfl

/-- C2: on inputs with fewer than 2 keyframes and optimization enabled,
`optimizePoints` hits the `if (points.length < 2) return;` line and
produces `undefined` (`none`) — a missing result, not the unmodified
input array the spec mandates. -/
theorem short_input_returns_undefined :
    optimizePoints [⟨[0], 0, none, none⟩] defaultOptimizeSettings 1
        initialDummyArrays = .ok none ∧
    optimizePoints [] defaultOptimizeSettings 1 initialDummyArrays = .ok none ∧
    ∀ r : List Keyframe,
      optimizePoints [⟨[0], 0, none, none⟩] defaultOptimizeSettings 1
        initialDummyArrays ≠ .ok (some r) := by
  refine ⟨rfl, rfl, fun r h => ?_⟩
  rw [show optimizePoints [⟨[0], 0, none, none⟩] defaultOptimizeSettings 1
      initialDummyArrays = .ok none from rfl] at h
  exact absurd h (by simp)

/-- Settings with only the duplicate family active. -/
def onlyDuplicatesSettings : OptimizeSettings :=
  { optimize := true
    optimizeDuplicates := { active := true }
    optimizeSimilarPoints :=
      { active := false, differenceThreshold := 1, timeDifferenceThreshold := 3/100 }
    optimizeSimilarPointsSlope :=
      { active := false, differenceThreshold := 3/100, timeDifferenceThreshold := 1/40
        yInterceptDifferenceThreshold := 1/2 } }

/-- Settings with only the similar-slope family active. -/
def onlySlopeSettings : OptimizeSettings :=
  { optimize := true
    optimizeDuplicates := { active := false }
    optimizeSimilarPoints :=
      { active := false, differenceThreshold := 1, timeDifferenceThreshold := 3/100 }
    optimizeSimilarPointsSlope :=
      { active := true, differenceThreshold := 3/100, timeDifferenceThreshold := 1/40
        yInterceptDifferenceThreshold := 1/2 } }

/-- C1 triple, flagged case: three identical keyframes at times 0, 1/2, 1. -/
def c1IdA : Keyframe := ⟨[1], 0, none, none⟩

/-- Middle keyframe of the C1 flagged triple. -/
def c1IdB : Keyframe := ⟨[1], 1/2, none, none⟩

/-- Last keyframe of the C1 flagged triple. -/
def c1IdC : Keyframe := ⟨[1], 1, none, none⟩

/-- C1 triple, unflagged case: three pairwise distinct keyframes. -/
def c1SepA : Keyframe := ⟨[0], 0, none, none⟩

/-- Middle keyframe of the C1 unflagged triple. -/
def c1SepB : Keyframe := ⟨[5], 1/2, none, none⟩

/-- Last keyframe of the C1 unflagged triple. -/
def c1SepC : Keyframe := ⟨[9], 1, none, none⟩

/-- C1: with only the duplicate family active, the interior scan is
inverted relative to the claim.  When the one active predicate flags the
middle point as removable (`optimizeDuplicates` returns it), the point
survives; when no active predicate flags it, the point is removed.  The
driver splices on `!processPoints(...)`, and `processPoints` is false
exactly when some active family does NOT flag the point. -/
theorem interior_scan_removal_condition_inverted :
    optimizeDuplicates c1IdA c1IdB (some c1IdC) = some c1IdB ∧
    optimizePoints [c1IdA, c1IdB, c1IdC] onlyDuplicatesSettings 1 initialDummyArrays
      = .ok (some [c1IdA, c1IdB, c1IdC]) ∧
    optimizeDuplicates c1SepA c1SepB (some c1SepC) = none ∧
    optimizePoints [c1SepA, c1SepB, c1SepC] onlyDuplicatesSettings 1 initialDummyArrays
      = .ok (some [c1SepA, c1SepC]) := by
  refine ⟨?_, ?_, ?_, ?_⟩ <;>
    norm_num [optimizePoints, sortByTime, List.insertionSort, List.orderedInsert,
      passLoop, twoPointStep, scanPass, scanInterior, processPoints,
      optimizeDuplicates, areArrayElementsIdentical, c1IdA, c1IdB, c1IdC,
      c1SepA, c1SepB, c1SepC, onlyDuplicatesSettings, initialDummyArrays,
      Option.some_ne_none, ne_eq, reduceCtorEq, pure, Except.pure, bind,
      Except.bind, Except.map]

/-- The C3 scenario keyframes: values `[0,0]` at times 0, 1/2, 1. -/
def c3KA : Keyframe := ⟨[0, 0], 0, none, none⟩

/-- Middle keyframe of the C3 scenario. -/
def c3KB : Keyframe := ⟨[0, 0], 1/2, none, none⟩

/-- Last keyframe of the C3 scenario. -/
def c3KC : Keyframe := ⟨[0, 0], 1, none, none⟩

/-- C3: running the spec's duplicate-removal scenario
(`[[0,0,0],[0,0,0.5],[0,0,1]]`, only `optimizeDuplicates.active`) through
the code keeps all three keyframes instead of producing
`[[0,0,0],[0,0,1]]`: the code removes on `!processPoints`, so a point all
active families flag as removable survives. -/
theorem duplicate_scenario_keeps_middle_point :
    optimizePoints [c3KA, c3KB, c3KC] onlyDuplicatesSettings 1 initialDummyArrays
      = .ok (some [c3KA, c3KB, c3KC]) ∧
    ([c3KA, c3KB, c3KC] : List Keyframe) ≠ [c3KA, c3KC] := by
  constructor
  · norm_num [optimizePoints, sortByTime, List.insertionSort, List.orderedInsert,
      passLoop, twoPointStep, scanPass, scanInterior, processPoints,
      optimizeDuplicates, areArrayElementsIdentical, c3KA, c3KB, c3KC,
      onlyDuplicatesSettings, initialDummyArrays, Option.some_ne_none, ne_eq,
      reduceCtorEq, pure, Except.pure, bind, Except.bind, Except.map]
  · simp

/-- C4, flagged pair: two keyframes with identical values. -/
def c4IdA : Keyframe := ⟨[2], 0, none, none⟩

/-- Second keyframe of the C4 flagged pair. -/
def c4IdB : Keyframe := ⟨[2], 1, none, none⟩

/-- C4, slope-only pair: two distinct keyframes. -/
def c4SlA : Keyframe := ⟨[0], 0, none, none⟩

/-- Second keyframe of the C4 slope-only pair. -/
def c4SlB : Keyframe := ⟨[9], 1, none, none⟩

/-- C4: the two-point branch is inverted relative to the claim, and the
slope predicate does contribute.  With only duplicates active, a pair the
duplicate predicate flags as redundant survives; with only the slope
family active, the second point is always removed (the slope predicate
returns `undefined` for 2 points, which the driver counts as a failed
check), though the claim says it contributes nothing. -/
theorem two_point_removal_condition_inverted :
    optimizeDuplicates c4IdA c4IdB none = some c4IdA ∧
    optimizePoints [c4IdA, c4IdB] onlyDuplicatesSettings 1 initialDummyArrays
      = .ok (some [c4IdA, c4IdB]) ∧
    optimizeSimilarPointsSlope c4SlA c4SlB none (3/100) (1/40) (1/2)
      initialDummyArrays = .ok (none, initialDummyArrays) ∧
    optimizePoints [c4SlA, c4SlB] onlySlopeSettings 1 initialDummyArrays
      = .ok (some [c4SlA]) := by
  refine ⟨?_, ?_, ?_, ?_⟩ <;>
    norm_num [optimizePoints, sortByTime, List.insertionSort, List.orderedInsert,
      passLoop, twoPointStep, scanPass, scanInterior, processPoints,
      optimizeDuplicates, areArrayElementsIdentical, optimizeSimilarPointsSlope,
      c4IdA, c4IdB, c4SlA, c4SlB, onlyDuplicatesSettings, onlySlopeSettings,
      initialDummyArrays, Option.some_ne_none, ne_eq, reduceCtorEq, pure,
      Except.pure, bind, Except.bind, Except.map]

/-- `qabs` is nonnegative. -/
theorem qabs_nonneg (x : ℚ) : 0 ≤ qabs x := qabs_eq_abs x ▸ abs_nonneg x

/-- The float-similarity loop succeeds exactly when every zipped channel
pair differs by strictly less than the threshold. -/
theorem areFloatsSimilarGo_eq_true_iff :
    ∀ (l1 l2 : List ℚ) (t : ℚ),
      areFloatsSimilarGo l1 l2 t = true ↔ ∀ p ∈ l1.zip l2, |p.1 - p.2| < t := by
  intro l1
  induction l1 with
  | nil => intro l2 t; simp [areFloatsSimilarGo]
  | cons a as ih =>
    intro l2 t
    cases l2 with
    | nil => simp [areFloatsSimilarGo]
    | cons b bs =>
      simp only [areFloatsSimilarGo, List.zip_cons_cons, List.mem_cons,
        forall_eq_or_imp]
      rw [qabs_eq_abs]
      by_cases h : |a - b| ≥ t
      · rw [if_pos h]
        simp only [Bool.false_eq_true, false_iff, not_and]
        intro hab
        exact absurd hab (not_lt.mpr h)
      · rw [if_neg h]
        rw [ih bs t]
        simp [not_le.mp h]

/-- C6 (amended): in the 2-point similar-points test with matching
easing/spline and arity, the pair is redundant exactly when every value
channel differs strictly below `differenceThreshold` AND the time
difference is at most (`≤`, not strictly below) `timeDifferenceThreshold`;
on the value side a difference equal to the threshold breaks similarity,
so `differenceThreshold = 0` means never similar (for nonempty value
vectors). -/
theorem similar_two_point_characterization
    (a b : Keyframe) (dT tT : ℚ)
    (he : a.easing = b.easing) (hs : a.spline = b.spline)
    (hl : a.values.length = b.values.length) :
    (optimizeSimilarPoints a b none dT tT = .ok (some a) ↔
      (∀ p ∈ a.values.zip b.values, |p.1 - p.2| < dT) ∧
        |a.time - b.time| ≤ tT) ∧
    (a.values ≠ [] → dT = 0 → optimizeSimilarPoints a b none dT tT = .ok none) := by
  have hmis : similarEasingMismatch a b none = false := by
    simp [similarEasingMismatch, he, hs]
  have harr : areFloatsSimilar a.values b.values dT
      = .ok (areFloatsSimilarGo a.values b.values dT) := by
    unfold areFloatsSimilar
    rw [if_neg (by simp [hl])]
  have heval : optimizeSimilarPoints a b none dT tT
      = .ok (if areFloatsSimilarGo a.values b.values dT &&
              decide (qabs (a.time - b.time) ≤ tT) then some a else none) := by
    unfold optimizeSimilarPoints
    rw [hmis]
    simp only [Bool.false_eq_true, if_false, arePointSimilar, harr, bind,
      Except.bind, pure, Except.pure]
  constructor
  · rw [heval]
    by_cases hc : (areFloatsSimilarGo a.values b.values dT &&
        decide (qabs (a.time - b.time) ≤ tT)) = true
    · rw [if_pos hc]
      simp only [Bool.and_eq_true, decide_eq_true_eq, qabs_eq_abs] at hc
      rw [areFloatsSimilarGo_eq_true_iff] at hc
      simp only [Except.ok.injEq, Option.some.injEq, true_iff]
      exact hc
    · rw [if_neg hc]
      simp only [Bool.and_eq_true, decide_eq_true_eq, qabs_eq_abs, not_and_or]
        at hc
      constructor
      · intro hcontra
        exact absurd hcontra (by simp)
      · rintro ⟨hv, ht⟩
        rcases hc with hc | hc
        · rw [Bool.not_eq_true, ← Bool.not_eq_true] at hc
          exact absurd ((areFloatsSimilarGo_eq_true_iff a.values b.values dT).mpr hv) hc
        · exact absurd ht hc
  · intro hne h0
    rw [heval]
    cases hva : a.values with
    | nil => exact absurd hva hne
    | cons v vs =>
      cases hvb : b.values with
      | nil => rw [hva, hvb] at hl; exact absurd hl (by simp)
      | cons w ws =>
        have hgo : areFloatsSimilarGo (v :: vs) (w :: ws) dT = false := by
          rw [h0]
          unfold areFloatsSimilarGo
          rw [if_pos (qabs_nonneg (v - w))]
        rw [hgo]
        simp

/-- The keyframes of the C6 counterexample: identical values, times
exactly `timeDifferenceThreshold` apart. -/
def c6KA : Keyframe := ⟨[0], 0, none, none⟩

/-- Second keyframe of the C6 counterexample. -/
def c6KB : Keyframe := ⟨[0], 3/100, none, none⟩

/-- Counterexample for C6 as stated: with the default thresholds 1 and
0.03, two keyframes with equal easing/spline whose time difference is
EXACTLY the time threshold are reported redundant by the code, though the
claim's strict-`<` reading says they must not be (`Math.abs(a.time -
b.time) <= timeDifferenceThreshold` in the source is non-strict). -/
theorem similar_time_threshold_boundary_counterexample :
    optimizeSimilarPoints c6KA c6KB none 1 (3/100) = .ok (some c6KA) ∧
    c6KA.easing = c6KB.easing ∧ c6KA.spline = c6KB.spline ∧
    ¬ |c6KA.time - c6KB.time| < 3/100 := by
  refine ⟨?_, rfl, rfl, ?_⟩
  · norm_num [optimizeSimilarPoints, similarEasingMismatch, arePointSimilar,
      areFloatsSimilar, areFloatsSimilarGo, qabs, c6KA, c6KB, pure, Except.pure,
      bind, Except.bind]
  · have : |c6KA.time - c6KB.time| = 3/100 := by
      show |(0:ℚ) - 3/100| = 3/100
      rw [zero_sub, abs_neg, abs_of_nonneg]
      norm_num
    rw [this]
    exact lt_irrefl _

/-- The keyframes of the C6 witness. -/
def c6WA : Keyframe := ⟨[1/2], 1/50, none, none⟩

/-- Second keyframe of the C6 witness. -/
def c6WB : Keyframe := ⟨[0], 0, none, none⟩

theorem similar_two_point_characterization_witness :
    optimizeSimilarPoints c6WA c6WB none 1 (3/100) = .ok (some c6WA) ∧
    (∀ p ∈ c6WA.values.zip c6WB.values, |p.1 - p.2| < 1) ∧
    |c6WA.time - c6WB.time| ≤ 3/100 := by
  have h1 : ∀ p ∈ c6WA.values.zip c6WB.values, |p.1 - p.2| < 1 := by
    simp only [c6WA, c6WB, List.zip_cons_cons, List.zip_nil_right,
      List.mem_singleton, forall_eq]
    rw [abs_of_nonneg] <;> norm_num
  have h2 : |c6WA.time - c6WB.time| ≤ 3/100 := by
    show |(1/50 : ℚ) - 0| ≤ 3/100
    rw [abs_of_nonneg] <;> norm_num
  exact ⟨(similar_two_point_characterization c6WA c6WB 1 (3/100) rfl rfl
    rfl).1.mpr ⟨h1, h2⟩, h1, h2⟩

/-- C7: the similarity comparison shared by the similar-points and
similar-slope checks throws on mismatched vector lengths, for any
threshold, before comparing anything — it never truncates. -/
theorem mismatched_lengths_error (enumerable1 enumerable2 : List ℚ) (threshold : ℚ)
    (h : enumerable1.length ≠ enumerable2.length) :
    areFloatsSimilar enumerable1 enumerable2 threshold
      = .error (lengthMismatchMessage enumerable1.length enumerable2.length) := by
  unfold areFloatsSimilar
  rw [if_pos h]

theorem mismatched_lengths_error_witness :
    ([(0:ℚ)] : List ℚ).length ≠ ([] : List ℚ).length ∧
    areFloatsSimilar [(0:ℚ)] [] 5
      = .error (lengthMismatchMessage ([(0:ℚ)] : List ℚ).length
          ([] : List ℚ).length) :=
  ⟨by simp, mismatched_lengths_error [(0:ℚ)] [] 5 (by simp)⟩

/-- Once `solve`'s walk has passed breakpoint `b` with accumulated
coverage at most the target, the value it eventually returns is at least
`b` (rates positive, breakpoints strictly increasing). -/
theorem solveGo_ge :
    ∀ (rest : List (ℚ × ℚ)) (b r acc x : ℚ),
      rest ≠ [] → 0 < r → (∀ p ∈ rest, 0 < p.2) →
      List.Chain' (fun p q : ℚ × ℚ => p.1 < q.1) ((b, r) :: rest) →
      acc ≤ x → b ≤ solveGo rest (some (b, r)) acc x := by
  intro rest
  induction rest with
  | nil => intro b r acc x hne; exact absurd rfl hne
  | cons c rest2 ih =>
    intro b r acc x _ hr hrates hchain hax
    obtain ⟨b2, r2⟩ := c
    have hbb2 : b < b2 := (List.chain'_cons.mp hchain).1
    have hr2 : 0 < r2 := hrates (b2, r2) (by simp)
    simp only [solveGo, covStep]
    split_ifs with h1 h2
    · exact le_add_of_nonneg_right (div_nonneg (sub_nonneg.mpr hax) hr.le)
    · refine hbb2.le.trans (le_add_of_nonneg_right (div_nonneg ?_ hr2.le))
      exact sub_nonneg.mpr (not_lt.mp h1)
    · have hrest2 : rest2 ≠ [] := by
        intro hcontra
        rw [hcontra] at h2
        exact h2 rfl
      refine hbb2.le.trans (ih b2 r2 (acc + r * (b2 - b)) x hrest2 hr2 ?_ ?_ ?_)
      · intro p hp; exact hrates p (by simp [hp])
      · exact (List.chain'_cons.mp hchain).2
      · exact not_lt.mp h1

/-- Key invariant: `apply` walked over the same table with the same
accumulated coverage undoes `solve`.  `acc` is the shared
`inputMapped`/`output` accumulator; when there is no previous change the
source code compares against the raw input, which is only correct for the
initial `acc = 0`. -/
theorem applyGo_solveGo :
    ∀ (changes : List (ℚ × ℚ)) (lastChange : Option (ℚ × ℚ)) (acc x : ℚ),
      changes ≠ [] →
      (∀ p ∈ changes, 0 < p.2) →
      (∀ lc ∈ lastChange, 0 < lc.2) →
      List.Chain' (fun p q : ℚ × ℚ => p.1 < q.1) (lastChange.toList ++ changes) →
      (lastChange = none → acc = 0) →
      applyGo changes lastChange acc (solveGo changes lastChange acc x) = x := by
  intro changes
  induction changes with
  | nil => intro _ _ _ hne; exact absurd rfl hne
  | cons c rest ih =>
    intro lastChange acc x _ hrates hlast hchain hacc0
    obtain ⟨b, r⟩ := c
    have hr : 0 < r := hrates (b, r) (by simp)
    by_cases hgt : acc + covStep lastChange b > x
    · -- solve stops before this change
      cases lastChange with
      | none =>
        have ha0 : acc = 0 := hacc0 rfl
        have hbx : ¬ b ≤ x := by
          rw [ha0] at hgt
          simp only [covStep, zero_add] at hgt
          exact not_le.mpr hgt
        simp only [solveGo, applyGo, if_pos hgt]
        rw [if_neg hbx]
      | some lc =>
        obtain ⟨lb, lr⟩ := lc
        have hlr : 0 < lr := hlast (lb, lr) (by simp)
        have hy : lb + (x - acc) / lr < b := by
          have h1 : (x - acc) / lr < b - lb := by
            rw [div_lt_iff₀ hlr]
            have := hgt
            simp only [covStep] at this
            nlinarith [this]
          linarith [h1]
        simp only [solveGo, applyGo, if_pos hgt]
        rw [if_neg (not_le.mpr hy)]
        rw [add_sub_cancel_left, mul_div_cancel₀ _ (ne_of_gt hlr)]
        ring
    · by_cases hre : rest.isEmpty
      · -- solve interpolates inside the final change
        have hby : b ≤ b + (x - (acc + covStep lastChange b)) / r :=
          le_add_of_nonneg_right
            (div_nonneg (sub_nonneg.mpr (not_lt.mp hgt)) hr.le)
        simp only [solveGo, applyGo, if_neg hgt, if_pos hre, if_pos hby]
        rw [add_sub_cancel_left, mul_div_cancel₀ _ (ne_of_gt hr)]
        ring
      · -- solve recurses into the remaining changes
        have hrest : rest ≠ [] := by
          intro hcontra; rw [hcontra] at hre; exact hre rfl
        have hchainr : List.Chain' (fun p q : ℚ × ℚ => p.1 < q.1) ((b, r) :: rest) := by
          cases lastChange with
          | none => simpa using hchain
          | some lc =>
            simp only [Option.toList_some, List.cons_append, List.nil_append] at hchain
            exact (List.chain'_cons.mp hchain).2
        have hby : b ≤ solveGo rest (some (b, r)) (acc + covStep lastChange b) x :=
          solveGo_ge rest b r (acc + covStep lastChange b) x hrest hr
            (fun p hp => hrates p (by simp [hp])) hchainr (not_lt.mp hgt)
        simp only [solveGo, applyGo, if_neg hgt, if_neg hre, if_pos hby]
        exact ih (some (b, r)) (acc + covStep lastChange b) x hrest
          (fun p hp => hrates p (by simp [hp]))
          (by intro lc hlc; simp only [Option.mem_def, Option.some.injEq] at hlc
              rw [← hlc]; exact hr)
          (by simpa using hchainr)
          (by intro hcontra; exact absurd hcontra (by simp))

/-- C5 (amended): composing the forward solver and the inverse applier
over a shared table with strictly increasing breakpoints and positive
rates returns `x + offset` exactly — so they are inverses precisely when
the offset is zero; the offset the applier adds is NOT undone.  This
holds for every `x` (interior, boundary, or outside the table's range),
exactly, with no tolerance needed over `ℚ`. -/
theorem solve_apply_inverse_up_to_offset
    (map : List (ℚ × ℚ)) (offset x : ℚ)
    (hchain : List.Chain' (fun p q : ℚ × ℚ => p.1 < q.1) map)
    (hrates : ∀ p ∈ map, 0 < p.2) :
    applyF (solveF x map) map + offset = x + offset ∧
    ∀ ids : List ℚ,
      applyLightMap offset map (solveLightMap map ids)
        = ids.map fun i => i + offset := by
  have hpoint : ∀ y : ℚ, applyF (solveF y map) map + offset = y + offset := by
    intro y
    cases map with
    | nil => simp [solveF, applyF]
    | cons c rest =>
      have hne : c :: rest ≠ ([] : List (ℚ × ℚ)) := by simp
      have hlen : ¬ (c :: rest).length < 1 := by simp
      unfold solveF applyF
      rw [if_neg hlen, if_neg hlen]
      rw [applyGo_solveGo (c :: rest) none 0 y hne hrates (by simp)
        (by simpa using hchain) (fun _ => rfl)]
  refine ⟨hpoint x, fun ids => ?_⟩
  unfold applyLightMap solveLightMap
  rw [List.map_map]
  refine List.map_congr_left fun i _ => ?_
  exact hpoint i

/-- The two-segment table used in the C5 counterexample and witness. -/
def c5Table : List (ℚ × ℚ) := [(1, 2), (3, 1)]

/-- Counterexample for C5 as stated: with table `[[1,2],[3,1]]` (raw
range covered: 1 to 5) and offset 10, the raw value `x = 3` — strictly
inside the range and on no breakpoint boundary — maps forward to 2 and
back to `3 + 10 = 13 ≠ 3`: the applier adds the offset, so the
composition is not the identity for a nonzero shared offset. -/
theorem solve_apply_offset_counterexample :
    List.Chain' (fun p q : ℚ × ℚ => p.1 < q.1) c5Table ∧
    (∀ p ∈ c5Table, 0 < p.2) ∧
    solveF 3 c5Table = 2 ∧
    applyF (solveF 3 c5Table) c5Table + 10 = 13 ∧
    (13 : ℚ) ≠ 3 := by
  have hsolve : solveF 3 c5Table = 2 := by
    norm_num [solveF, solveGo, covStep, c5Table, List.isEmpty]
  refine ⟨?_, ?_, hsolve, ?_, by norm_num⟩
  · simp only [c5Table, List.chain'_cons, List.chain'_singleton, and_true]
    norm_num
  · intro p hp
    simp only [c5Table, List.mem_cons, List.not_mem_nil, or_false] at hp
    rcases hp with h | h <;> rw [h] <;> norm_num
  · rw [hsolve]
    norm_num [applyF, applyGo, covStep, c5Table, List.isEmpty]

theorem solve_apply_inverse_witness :
    applyF (solveF 3 c5Table) c5Table + 0 = 3 + 0 ∧
    applyLightMap 0 c5Table (solveLightMap c5Table [3]) = [3] := by
  have h := solve_apply_inverse_up_to_offset c5Table 0 3
    (by simp only [c5Table, List.chain'_cons, List.chain'_singleton, and_true]
        norm_num)
    (by intro p hp
        simp only [c5Table, List.mem_cons, List.not_mem_nil, or_false] at hp
        rcases hp with h | h <;> rw [h] <;> norm_num)
  refine ⟨h.1, ?_⟩
  rw [h.2 [3]]
  norm_num

/-- An event whose `lightID` is the bare number 7. -/
def evScalar7 : AbstractEvent := ⟨0, none, some (.scalar 7)⟩

/-- An event whose `lightID` is the bare number 0 (falsy in JS). -/
def evScalar0 : AbstractEvent := ⟨0, none, some (.scalar 0)⟩

/-- Writing back through `complexifyLightIDs` and then re-promoting
recovers exactly the callback's output: demotion to a scalar only happens
on one-element results, and `lidToList` undoes it. -/
theorem lidToList_complexify (lid : LightID) (callback : List ℚ → List ℚ) :
    lidToList (complexifyLightIDs lid callback) = callback (lidToList lid) := by
  simp only [complexifyLightIDs]
  cases h : callback (lidToList lid) with
  | nil => simp [lidToList]
  | cons a as =>
    cases as with
    | nil => simp [lidToList]
    | cons b bs => simp [lidToList]

/-- C8 (amended): `addToEnd` maps each id `i` to `(i-1)*step + 1 + offset`
when a NONZERO step is given, and to `i + offset` when the step is absent
or zero (`if (step)` is a JS truthiness test), on events whose `lightID`
is truthy (present and not the bare number 0).  The first two conjuncts
state the per-element formulas for sequence lightIDs (over every element,
a 0 element included — the written-back value, re-promoted by
`lidToList`, is the element-wise image); the next two state them for bare
scalar ids; in particular `addToEnd(offset=10)` maps lightID 7 to 17, and
with `step=2` to `(7-1)*2+1+10 = 23`. -/
theorem addToEnd_mapping_formula :
    (∀ (offset s : ℚ) (ids : List ℚ) (x : AbstractEvent), s ≠ 0 →
      x.lightID = some (.seq ids) →
      ((addToEndProcess offset (some s) x).lightID).map lidToList
        = some (ids.map fun i => (i - 1) * s + 1 + offset)) ∧
    (∀ (offset : ℚ) (step : Option ℚ) (ids : List ℚ) (x : AbstractEvent),
      step = none ∨ step = some 0 →
      x.lightID = some (.seq ids) →
      ((addToEndProcess offset step x).lightID).map lidToList
        = some (ids.map fun i => i + offset)) ∧
    (∀ (offset s i : ℚ) (x : AbstractEvent), s ≠ 0 → i ≠ 0 →
      x.lightID = some (.scalar i) →
      (addToEndProcess offset (some s) x).lightID
        = some (.scalar ((i - 1) * s + 1 + offset))) ∧
    (∀ (offset i : ℚ) (x : AbstractEvent), i ≠ 0 →
      x.lightID = some (.scalar i) →
      (addToEndProcess offset none x).lightID = some (.scalar (i + offset))) ∧
    (addToEndProcess 10 none evScalar7).lightID = some (.scalar 17) ∧
    (addToEndProcess 10 (some 2) evScalar7).lightID = some (.scalar 23) := by
  refine ⟨?_, ?_, ?_, ?_, ?_, ?_⟩
  · intro offset s ids x hs hx
    simp only [addToEndProcess, hx, lightIDTruthy, if_true]
    rw [Option.map_some', lidToList_complexify]
    simp only [lidToList, Option.some.injEq]
    refine List.map_congr_left fun i _ => ?_
    simp [hs]
  · intro offset step ids x hstep hx
    rcases hstep with h | h
    · subst h
      simp only [addToEndProcess, hx, lightIDTruthy, if_true]
      rw [Option.map_some', lidToList_complexify]
      simp [lidToList]
    · subst h
      simp only [addToEndProcess, hx, lightIDTruthy, if_true]
      rw [Option.map_some', lidToList_complexify]
      simp only [lidToList, Option.some.injEq]
      refine List.map_congr_left fun i _ => ?_
      simp
  · intro offset s i x hs hi hx
    simp [addToEndProcess, hx, lightIDTruthy, hi, complexifyLightIDs, lidToList, hs]
  · intro offset i x hi hx
    simp [addToEndProcess, hx, lightIDTruthy, hi, complexifyLightIDs, lidToList]
  · norm_num [addToEndProcess, evScalar7, lightIDTruthy, complexifyLightIDs,
      lidToList]
  · norm_num [addToEndProcess, evScalar7, lightIDTruthy, complexifyLightIDs,
      lidToList]

/-- Counterexample for C8 as stated.  A GIVEN step of 0 is falsy, so the
code applies `i + offset` instead of the claimed `(i-1)*step + 1 + offset`
formula: lightID 7 with offset 10, step 0 becomes 17, not
`(7-1)*0+1+10 = 11`.  Moreover an event whose lightID is the bare number
0 is skipped entirely (JS truthiness), not mapped to `0 + offset`. -/
theorem addToEnd_zero_step_counterexample :
    (addToEndProcess 10 (some 0) evScalar7).lightID = some (.scalar 17) ∧
    ((7 : ℚ) - 1) * 0 + 1 + 10 = 11 ∧ (17 : ℚ) ≠ 11 ∧
    (addToEndProcess 10 none evScalar0).lightID = some (.scalar 0) ∧
    (0 : ℚ) + 10 = 10 ∧ (0 : ℚ) ≠ 10 := by
  refine ⟨?_, by norm_num, by norm_num, ?_, by norm_num, by norm_num⟩
  · norm_num [addToEndProcess, evScalar7, lightIDTruthy, complexifyLightIDs,
      lidToList]
  · norm_num [addToEndProcess, evScalar0, lightIDTruthy, complexifyLightIDs,
      lidToList]

/-- An event whose `lightID` is the sequence `[7, 0]` (truthy; note the
0 element). -/
def evSeqPair : AbstractEvent := ⟨0, none, some (.seq [7, 0])⟩

theorem addToEnd_mapping_formula_witness :
    (2 : ℚ) ≠ 0 ∧
    ((addToEndProcess 10 (some 2) evSeqPair).lightID).map lidToList
      = some [23, 9] ∧
    (addToEndProcess 10 (some 2) evScalar7).lightID
      = some (.scalar ((7 - 1) * 2 + 1 + 10)) := by
  refine ⟨by norm_num, ?_, ?_⟩
  · rw [addToEnd_mapping_formula.1 10 2 [7, 0] evSeqPair (by norm_num) rfl]
    norm_num
  · exact addToEnd_mapping_formula.2.2.1 10 2 7 evScalar7 (by norm_num)
      (by norm_num) rfl

/-- An event whose `lightID` is the one-element sequence `[7]`. -/
def evSeqSingle7 : AbstractEvent := ⟨0, none, some (.seq [7])⟩

/-- An event whose `lightID` is the one-element sequence `[3]`. -/
def evSeqSingle3 : AbstractEvent := ⟨0, none, some (.seq [3])⟩

/-- An event whose `lightID` is the one-element sequence `[6]`. -/
def evSeqSingle6 : AbstractEvent := ⟨0, none, some (.seq [6])⟩

/-- An event whose `lightID` is the one-element sequence `[2]`. -/
def evSeqSingle2 : AbstractEvent := ⟨0, none, some (.seq [2])⟩

/-- C10: the shared helper demotes ANY one-element callback result to a
bare number, whatever the input shape was; consequently each of the five
lightID-transforming processes (appendIDs, normalizeLinear,
normalizeWithChanges, addToEnd, remapEnd), all of which write through
`complexifyLightIDs`, turns a one-element sequence into a bare integer
whenever its transform preserves the single element. -/
theorem complexify_demotes_single_results :
    (∀ (lid : LightID) (callback : List ℚ → List ℚ) (j : ℚ),
      callback (lidToList lid) = [j] →
      complexifyLightIDs lid callback = .scalar j) ∧
    (appendIDsProcess (.seq []) false evSeqSingle7).lightID
      = some (.scalar 7) ∧
    (normalizeLinearProcess 2 1 evSeqSingle3).lightID = some (.scalar 2) ∧
    (normalizeWithChangesProcess [(1, 2), (3, 1)] evSeqSingle6).lightID
      = some (.scalar 4) ∧
    (addToEndProcess 10 none evSeqSingle7).lightID = some (.scalar 17) ∧
    (remapEndProcess [(1, 2)] 0 evSeqSingle2).lightID = some (.scalar 3) := by
  refine ⟨?_, ?_, ?_, ?_, ?_, ?_⟩
  · intro lid callback j h
    simp [complexifyLightIDs, h]
  · norm_num [appendIDsProcess, evSeqSingle7, lightIDTruthy, complexifyLightIDs,
      lidToList]
  · norm_num [normalizeLinearProcess, evSeqSingle3, lightIDTruthy,
      complexifyLightIDs, lidToList, solveLightMap, solveF, solveGo, covStep,
      List.isEmpty]
  · norm_num [normalizeWithChangesProcess, evSeqSingle6, lightIDTruthy,
      complexifyLightIDs, lidToList, solveLightMap, solveF, solveGo, covStep,
      List.isEmpty]
  · norm_num [addToEndProcess, evSeqSingle7, lightIDTruthy, complexifyLightIDs,
      lidToList]
  · norm_num [remapEndProcess, evSeqSingle2, lightIDTruthy, complexifyLightIDs,
      lidToList, applyLightMap, applyF, applyGo, covStep, List.isEmpty]

theorem complexify_demotes_single_results_witness :
    (fun ids => ids) (lidToList (.seq [5])) = [(5 : ℚ)] ∧
    complexifyLightIDs (.seq [5]) (fun ids => ids) = .scalar 5 :=
  ⟨rfl, complexify_demotes_single_results.1 (.seq [5]) (fun ids => ids) 5 rfl⟩
